import Mathlib

/-!
Verification of `pre-commit-maven-nyx` (`src/pre_commit_maven_nyx/maven_nyx_check.py`)
against its natural-language specification.

The Python program is shallowly embedded below:
* pure helpers (`matches_protected_branch`, `read_nyx_version`, `get_pom_version`,
  `validate_liquibase_files`) become Lean functions over explicit data;
* process I/O (config file, git branch query, state file, pom file, directory
  probes) is abstracted into a `World` record holding what each access would
  yield, and `main` is a pure function from a `World` to the run's I/O trace,
  log lines and outcome;
* `sys.exit(1)` / `return 0` / an uncaught Python exception become the
  `Outcome` type.
-/

/-- Embeds Python `fnmatch.fnmatchcase(name, pattern)` restricted to patterns
built from literal characters, `*` and `?` (no `[...]` character classes; the
program's protected-branch patterns and all spec examples are of this shape).
`fnmatch.translate` turns `*` into `.*`, `?` into `.` and anchors the whole
match, with `.` matching every character including `/`; this recursion computes
exactly that anchored match. First argument is the pattern, second the name. -/
def globMatch (p s : List Char) : Bool :=
  match p, s with
  | [], s => s.isEmpty
  | c :: p', s =>
    if c = '*' then
      (globMatch p' s ||
        match s with
        | [] => false
        | _ :: s' => globMatch (c :: p') s')
    else
      match s with
      | [] => false
      | d :: s' => if c = '?' then globMatch p' s' else (c = d && globMatch p' s')
termination_by (p.length, s.length)
decreasing_by
  all_goals simp_wf
  all_goals omega

/-- Embeds the call `fnmatch.fnmatchcase(branch, p)` on strings
(maven_nyx_check.py line 107). -/
def fnmatchcase (name pat : String) : Bool :=
  globMatch pat.data name.data

/-- Embeds `matches_protected_branch` (maven_nyx_check.py lines 104-107):
`any(fnmatch.fnmatchcase(branch, p) for p in patterns)`. -/
def matchesProtectedBranch (branch : String) (patterns : List String) : Bool :=
  patterns.any (fun p => fnmatchcase branch p)

/-- Modelled from the spec's words (§4.1): shell-style glob matching where `*`
matches zero or more characters **including path separators**, `?` matches
exactly one character, literals match case-sensitively, and matching is
anchored (the whole string must match). `GlobSpec p s` holds iff pattern `p`
matches the whole string `s`. -/
inductive GlobSpec : List Char → List Char → Prop where
  | nil : GlobSpec [] []
  | one (c : Char) {p s : List Char} : GlobSpec p s → GlobSpec ('?' :: p) (c :: s)
  | star_zero {p s : List Char} : GlobSpec p s → GlobSpec ('*' :: p) s
  | star_more (c : Char) {p s : List Char} :
      GlobSpec ('*' :: p) s → GlobSpec ('*' :: p) (c :: s)
  | lit (c : Char) {p s : List Char} : c ≠ '*' → c ≠ '?' →
      GlobSpec p s → GlobSpec (c :: p) (c :: s)

/-- Values produced by Python `json.loads`: `null`, booleans, numbers, strings,
arrays and objects. Numbers are modelled as integers (the state file's version
fields are integer-like; floats are outside this embedding). Objects are
association lists; `json.loads` collapses duplicate keys, so parsed objects are
assumed duplicate-key-free. -/
inductive Json where
  | null : Json
  | bool (b : Bool) : Json
  | num (n : Int) : Json
  | str (s : String) : Json
  | arr (xs : List Json) : Json
  | obj (kvs : List (String × Json)) : Json

/-- Python type name of a `Json` value, as it appears in exception messages. -/
def jsonTypeName : Json → String
  | .null => "NoneType"
  | .bool _ => "bool"
  | .num _ => "int"
  | .str _ => "str"
  | .arr _ => "list"
  | .obj _ => "dict"

/-- Python truthiness of a `Json` value: `None`, `False`, `0`, `""`, `[]` and
`\x7b\x7d` are falsy, everything else truthy. -/
def pyTruthy : Json → Bool
  | .null => false
  | .bool b => b
  | .num n => n != 0
  | .str s => !s.isEmpty
  | .arr xs => !xs.isEmpty
  | .obj kvs => !kvs.isEmpty

/-- Python `repr` of a string: single-quoted unless the string contains a
single quote and no double quote, escaping the backslash, the delimiter, and
the common control characters (other control characters are rendered as-is;
none of the strings this program prints contain any). -/
def pyStrEscape (quote : Char) (s : String) : String :=
  String.mk (s.data.flatMap (fun c =>
    if c = '\\' then ['\\', '\\']
    else if c = quote then ['\\', quote]
    else if c = '\n' then ['\\', 'n']
    else if c = '\t' then ['\\', 't']
    else if c = '\r' then ['\\', 'r']
    else [c]))

def pyReprString (s : String) : String :=
  if s.data.contains '\'' && !(s.data.contains '"') then
    "\"" ++ pyStrEscape '"' s ++ "\""
  else
    "'" ++ pyStrEscape '\'' s ++ "'"

mutual
/-- Python `repr()` of a `Json` value (what `str()` yields for everything but
top-level strings). -/
def pyRepr : Json → String
  | .null => "None"
  | .bool true => "True"
  | .bool false => "False"
  | .num n => toString n
  | .str s => pyReprString s
  | .arr xs => "[" ++ pyReprList xs ++ "]"
  | .obj kvs => "\x7b" ++ pyReprObj kvs ++ "\x7d"

def pyReprList : List Json → String
  | [] => ""
  | [x] => pyRepr x
  | x :: y :: rest => pyRepr x ++ ", " ++ pyReprList (y :: rest)

def pyReprObj : List (String × Json) → String
  | [] => ""
  | [(k, v)] => pyReprString k ++ ": " ++ pyRepr v
  | (k, v) :: kv :: rest => pyReprString k ++ ": " ++ pyRepr v ++ ", " ++ pyReprObj (kv :: rest)
end

/-- Python `str()` of a `Json` value, as used by f-string interpolation:
identity on strings, `repr`-like on everything else. -/
def pyStr : Json → String
  | .str s => s
  | v => pyRepr v

/-- Python `str.strip()` with no arguments: remove leading and trailing
whitespace (for the ASCII whitespace that arises here; Python also strips a
few rarer Unicode space characters). -/
def pyStrip (s : String) : String :=
  String.mk (((s.data.dropWhile Char.isWhitespace).reverse.dropWhile Char.isWhitespace).reverse)

/-- Python `dict.get(k)` on a parsed JSON object: the value bound to `k`, or
`None` when absent. -/
def jget (kvs : List (String × Json)) (k : String) : Json :=
  ((kvs.find? (fun kv => kv.1 = k)).map (fun kv => kv.2)).getD .null

/-- Python `dict.get(k, default)` on a parsed JSON object. -/
def jgetD (kvs : List (String × Json)) (k : String) (d : Json) : Json :=
  ((kvs.find? (fun kv => kv.1 = k)).map (fun kv => kv.2)).getD d

/-- The error message of `read_nyx_version` (maven_nyx_check.py line 133). -/
def nyxMissingMsg (file : String) : String :=
  "Failed to parse Nyx JSON: Missing Major, Minor or Patch version. Check your "
    ++ file
    ++ " for fields: versionMajorNumber, versionMinorNumber and versionPatchNumber"

/-- Embeds `read_nyx_version` (maven_nyx_check.py lines 128-135). The Python
`not data.get(k)` tests are Python falsiness of the fetched field; the success
value is the f-string `"{major}.{minor}.{patch}"`. `.error m` stands for
`logging.error(m); sys.exit(1)`. -/
def readNyxVersion (file : String) (d : List (String × Json)) : Except String String :=
  if !(pyTruthy (jget d "versionMajorNumber"))
      || !(pyTruthy (jget d "versionMinorNumber"))
      || !(pyTruthy (jget d "versionPatchNumber")) then
    .error (nyxMissingMsg file)
  else
    .ok (pyStr (jget d "versionMajorNumber") ++ "." ++ pyStr (jget d "versionMinorNumber")
          ++ "." ++ pyStr (jget d "versionPatchNumber"))

/-- An XML element as `xml.etree.ElementTree` parses it: the tag (with a
declared namespace already expanded to the `\x7buri\x7dlocal` form, as
ElementTree stores it), the element's `.text` (`none` when the element has no
text), and the child elements in document order. -/
inductive XElem where
  | mk (tag : String) (text : Option String) (children : List XElem)

def XElem.tag : XElem → String
  | .mk t _ _ => t

def XElem.text : XElem → Option String
  | .mk _ t _ => t

def XElem.children : XElem → List XElem
  | .mk _ _ cs => cs

/-- The fixed Maven POM namespace URI of maven_nyx_check.py line 144. -/
def mavenNS : String := "http://maven.apache.org/POM/4.0.0"

/-- The ElementTree tag `\x7bhttp://maven.apache.org/POM/4.0.0\x7dlocal` that a
namespaced search `m:local` with that namespace map looks for. -/
def nsTag (local_ : String) : String := "\x7b" ++ mavenNS ++ "\x7d" ++ local_

mutual
/-- All strict descendants of an element in document (pre-)order, as an
ElementTree `.//` search visits them. -/
def descendants : XElem → List XElem
  | .mk _ _ cs => descendantsList cs

def descendantsList : List XElem → List XElem
  | [] => []
  | c :: cs => (c :: descendants c) ++ descendantsList cs
end

/-- The first match of `tree.find(".//m:parent/m:version", namespaces)`
(maven_nyx_check.py line 152): the first Maven-namespaced `version` child of a
Maven-namespaced `parent` element anywhere below the root, in document order. -/
def findParentVersion (root : XElem) : Option XElem :=
  ((descendants root).filterMap (fun p =>
    if p.tag = nsTag "parent" then
      p.children.find? (fun c => c.tag = nsTag "version")
    else none)).head?

/-- The message of the `ValueError` raised at maven_nyx_check.py line 155,
as it is caught and logged by line 157. -/
def pomNoVersionMsg : String :=
  "Failed to parse pom.xml: No <version> found in pom.xml or parent"

/-- The caught `AttributeError` when a found version element has no text
(`.text` is `None`, so `.strip()` fails), logged by line 157. -/
def pomNoneTextMsg : String :=
  "Failed to parse pom.xml: 'NoneType' object has no attribute 'strip'"

/-- Embeds the body of `get_pom_version` on a parsed document
(maven_nyx_check.py lines 143-158): first a Maven-namespaced `version` element
that is a direct child of the root, then a Maven-namespaced `parent`/`version`
anywhere; the found element's text is stripped. `.error m` stands for
`logging.error(m); sys.exit(1)`. -/
def getPomVersion (root : XElem) : Except String String :=
  match root.children.find? (fun c => c.tag = nsTag "version") with
  | some ve =>
    match ve.text with
    | some t => .ok (pyStrip t)
    | none => .error pomNoneTextMsg
  | none =>
    match findParentVersion root with
    | some pv =>
      match pv.text with
      | some t => .ok (pyStrip t)
      | none => .error pomNoneTextMsg
    | none => .error pomNoVersionMsg

/-- One external I/O access performed during a run: the config-file read, the
`git rev-parse` branch query, the state-file read, the pom read, or one
existence probe of a Liquibase file path. -/
inductive Event where
  | readConfig : Event
  | queryBranch : Event
  | readNyx : Event
  | readPom : Event
  | checkExists (path : String) : Event
deriving DecidableEq

/-- Logging level of an emitted line. -/
inductive Level where
  | info : Level
  | warn : Level
  | error : Level
deriving DecidableEq

abbrev LogLine := Level × String

/-- How a run ends: `exit c` for `return 0` / `sys.exit(1)`, `crash m` for an
uncaught Python exception (the interpreter then prints a traceback instead of
a log line; `m` names the exception). -/
inductive Outcome where
  | exit (code : Nat) : Outcome
  | crash (msg : String) : Outcome
deriving DecidableEq

/-- What reading one external file yields: its parsed content, a parse
failure, or an OS-level read failure (each failure carrying the Python
exception text interpolated into the log message). -/
inductive ReadResult (α : Type) where
  | ok (a : α) : ReadResult α
  | parseError (e : String) : ReadResult α
  | readError (e : String) : ReadResult α

/-- The environment a run executes in, abstracting every external resource:
`none` for a missing file, otherwise the result of reading and parsing it.
`branchQuery` is the stdout of `git rev-parse --abbrev-ref HEAD` (`none` when
the subprocess fails). `fileExists` answers the Liquibase existence probes. -/
structure World where
  configFile : Option (ReadResult Json)
  branchQuery : Option String
  nyxFile : Option (ReadResult Json)
  pomFile : Option (ReadResult XElem)
  fileExists : String → Bool

/-- The trace of external accesses, the log lines, and the outcome of a run. -/
structure RunResult where
  trace : List Event
  logs : List LogLine
  outcome : Outcome

/-- Embeds `get_current_branch` (maven_nyx_check.py lines 71-82): strip the
subprocess output, map `HEAD` to `DETACHED`, and any failure to `unknown`. -/
def getCurrentBranch (q : Option String) : String :=
  match q with
  | none => "unknown"
  | some out => if pyStrip out = "HEAD" then "DETACHED" else pyStrip out

def configPathStr : String := ".pre-commit-maven-nyx.json"

def configDefaultWarnMsg : String :=
  "Using default configuration; to avoid this, create a .pre-commit-maven-nyx.json file. "
    ++ "More info at https://github.com/Martinetto33/pre-commit-maven-nyx?tab=readme-ov-file#usage."

/-- Embeds `load_config` (maven_nyx_check.py lines 85-101): missing file warns
twice and yields the empty dict, a JSON error or read error is fatal, and
otherwise whatever the file parses to is returned unchecked. -/
def loadConfig (cf : Option (ReadResult Json)) : List LogLine × Except Outcome Json :=
  match cf with
  | none =>
    ([(Level.warn, "Config file not found: " ++ configPathStr),
      (Level.warn, configDefaultWarnMsg)], .ok (.obj []))
  | some (.parseError e) =>
    ([(Level.error, "Failed to parse config file: " ++ e)], .error (.exit 1))
  | some (.readError e) =>
    ([(Level.error, "Failed to load config: " ++ e)], .error (.exit 1))
  | some (.ok j) => ([], .ok j)

/-- The uncaught `AttributeError` raised by `config.get(...)` when the parsed
config is not a dict (exception text abstracted to its Python form). -/
def attrGetMsg (v : Json) : String :=
  "AttributeError: '" ++ jsonTypeName v ++ "' object has no attribute 'get'"

/-- The uncaught `TypeError` raised inside `fnmatch.fnmatchcase` when a
pattern is not a string (the exact Python text depends on the value's type;
the modelled fact is that an uncaught `TypeError` escapes). -/
def fnmatchTypeMsg (v : Json) : String :=
  "TypeError: fnmatch pattern of type '" ++ jsonTypeName v ++ "' is not a string"

/-- The uncaught `TypeError` raised by `Path(value)` on a non-string value. -/
def pathTypeMsg (v : Json) : String :=
  "TypeError: argument should be a str or an os.PathLike object "
    ++ "where __fspath__ returns a str, not <class '" ++ jsonTypeName v ++ "'>"

/-- Embeds `Path(value)` on a config value: a string passes through, anything
else raises `TypeError`. -/
def pathOf : Json → Except String String
  | .str s => .ok s
  | v => .error (pathTypeMsg v)

/-- Embeds `any(fnmatch.fnmatchcase(branch, p) for p in patterns)` exactly as
Python evaluates it: lazily, left to right, so a matching string pattern
short-circuits and a non-string pattern is only reached (raising `TypeError`)
when no earlier pattern matched. -/
def anyMatchJ (branch : String) : List Json → Except String Bool
  | [] => .ok false
  | .str p :: rest =>
    if fnmatchcase branch p then .ok true else anyMatchJ branch rest
  | j :: _ => .error (fnmatchTypeMsg j)

/-- Embeds `str(Path(d) / name)` for the relative directory/name shapes this
program builds (no trailing-slash or absolute-name normalisation arises). -/
def pathJoin (d f : String) : String :=
  if d = "" || d = "." then f else d ++ "/" ++ f

def lbSummaryMsg (version lbDir forward rollback : String) : String :=
  "Liquibase files missing for version " ++ version
    ++ " (checked directory: " ++ lbDir ++ "). Expected files: " ++ forward
    ++ " and " ++ rollback
    ++ ". Refusing to commit on protected branch without Liquibase files. "
    ++ "You can disable this check by setting check_liquibase=false in .pre-commit-maven-nyx.json."

/-- Embeds `validate_liquibase_files` (maven_nyx_check.py lines 161-182).
Both existence probes always run; the missing paths are collected in order
(forward first). The `for ... else` at lines 173-181 has no `break`, so its
`else` always executes after the loop: every missing path is logged
individually and then the summary line is logged, before `sys.exit(1)`. -/
def validateLiquibaseFiles (version lbDir : String) (ex : String → Bool) :
    List Event × List LogLine × Except Outcome Unit :=
  let forward := pathJoin lbDir (version ++ ".sql")
  let rollback := pathJoin lbDir (version ++ "_rollback.sql")
  let missing :=
    (if !(ex forward) then [forward] else []) ++ (if !(ex rollback) then [rollback] else [])
  let evs := [Event.checkExists forward, Event.checkExists rollback]
  if missing.isEmpty then (evs, [], .ok ())
  else
    (evs,
     missing.map (fun f => (Level.error, "Missing Liquibase file: " ++ f))
       ++ [(Level.error, lbSummaryMsg version lbDir forward rollback)],
     .error (.exit 1))

/-- Embeds `load_nyx_version` (maven_nyx_check.py lines 116-125) on the
abstracted state-file read. A non-dict parse result makes `data.get(...)`
raise `AttributeError` inside the `try`, caught and logged as a parse
failure; the `sys.exit(1)` from `read_nyx_version` is a `SystemExit`, which
`except Exception` does not catch. -/
def loadNyxVersion (nyxRead : Option (ReadResult Json)) (nyxPath : String) :
    List LogLine × Except Outcome String :=
  match nyxRead with
  | none =>
    ([(Level.error, "Nyx version file not found: " ++ nyxPath)], .error (.exit 1))
  | some (.parseError e) | some (.readError e) =>
    ([(Level.error, "Failed to parse Nyx JSON: " ++ e)], .error (.exit 1))
  | some (.ok (.obj nd)) =>
    match readNyxVersion nyxPath nd with
    | .error m => ([(Level.error, m)], .error (.exit 1))
    | .ok v => ([], .ok v)
  | some (.ok v) =>
    ([(Level.error, "Failed to parse Nyx JSON: " ++ attrGetMsg v)], .error (.exit 1))

def mavenMismatchMsg (pomV nyxV : String) : String :=
  "Maven version (" ++ pomV ++ ") != Nyx version (" ++ nyxV
    ++ "). Refusing to commit on protected branch unless versions match. "
    ++ "You can disable this check by setting check_maven=false in .pre-commit-maven-nyx.json. "

/-- The Maven check of `main` (maven_nyx_check.py lines 232-241), including
`get_pom_version`'s file handling (lines 138-158): skipped entirely when
`check_maven` is false; otherwise one pom read, fatal on a missing or
unparsable file, on no resolvable version, or on a version differing from the
Nyx version by exact string comparison. -/
def mavenStep (cmb : Bool) (pomRead : Option (ReadResult XElem)) (pomPath nyxVersion : String) :
    List Event × List LogLine × Except Outcome Unit :=
  if cmb then
    ([Event.readPom],
     match pomRead with
     | none => ([(Level.error, "pom.xml not found: " ++ pomPath)], .error (.exit 1))
     | some (.parseError e) | some (.readError e) =>
       ([(Level.error, "Failed to parse pom.xml: " ++ e)], .error (.exit 1))
     | some (.ok root) =>
       match getPomVersion root with
       | .error m => ([(Level.error, m)], .error (.exit 1))
       | .ok pomVersion =>
         if pomVersion ≠ nyxVersion then
           ([(Level.error, mavenMismatchMsg pomVersion nyxVersion)], .error (.exit 1))
         else ([(Level.info, "Maven version matches Nyx")], .ok ()))
  else ([], [], .ok ())

/-- The Liquibase check of `main` (maven_nyx_check.py lines 244-246): skipped
when `check_liquibase` is false, otherwise `validate_liquibase_files`. -/
def liquibaseStep (clb : Bool) (nyxVersion lbDir : String) (ex : String → Bool) :
    List Event × List LogLine × Except Outcome Unit :=
  if clb then
    match validateLiquibaseFiles nyxVersion lbDir ex with
    | (evs, lgs, .ok _) => (evs, lgs ++ [(Level.info, "Liquibase files present")], .ok ())
    | (evs, lgs, .error o) => (evs, lgs, .error o)
  else ([], [], .ok ())

def defaultProtected : Json := .arr [.str "master", .str "main"]

def protectedBranchesErrMsg (v : Json) : String :=
  "Protected branches in file " ++ configPathStr
    ++ " must be a list of strings; got `" ++ pyStr v ++ "` instead."

def skipMsg (b : String) (v : Json) : String :=
  "Branch '" ++ b ++ "' not in protected list " ++ pyStr v ++ " - skipping checks"

def boolsErrMsg (cm cl : Json) : String :=
  "check_maven and check_liquibase must be booleans; got check_maven=" ++ pyStr cm
    ++ " and check_liquibase=" ++ pyStr cl ++ " instead."

/-- Embeds `main` (maven_nyx_check.py lines 185-249) over an abstracted
environment. Mirrors the source order: load config; query the branch once and
log it; fetch `protected_branches` (an uncaught `AttributeError` when the
config is not a dict); validate only `isinstance(..., list)`;
`is_protected_branch` re-queries the branch and re-matches; on no match exit 0;
otherwise build the three paths (`Path(...)` raising on non-strings), validate
the two flags are booleans, read the Nyx version, then run the Maven and
Liquibase steps. -/
def mainRun (w : World) : RunResult :=
  match loadConfig w.configFile with
  | (lg0, .error o) => ⟨[.readConfig], lg0, o⟩
  | (lg0, .ok config) =>
    let b := getCurrentBranch w.branchQuery
    let lg1 := lg0 ++ [(Level.info, "Current branch: " ++ b)]
    match config with
    | .obj kvs =>
      match jgetD kvs "protected_branches" defaultProtected with
      | .arr ps =>
        match anyMatchJ (getCurrentBranch w.branchQuery) ps with
        | .error exc => ⟨[.readConfig, .queryBranch, .queryBranch], lg1, .crash exc⟩
        | .ok false =>
          ⟨[.readConfig, .queryBranch, .queryBranch],
           lg1 ++ [(Level.info, skipMsg b (Json.arr ps))], .exit 0⟩
        | .ok true =>
          let lg2 := lg1 ++ [(Level.info, "Running checks on protected branch '" ++ b ++ "'")]
          match pathOf (jgetD kvs "nyx_version_file" (.str "nyx-state.json")) with
          | .error exc => ⟨[.readConfig, .queryBranch, .queryBranch], lg2, .crash exc⟩
          | .ok nyxPath =>
            match pathOf (jgetD kvs "pom_file" (.str "pom.xml")) with
            | .error exc => ⟨[.readConfig, .queryBranch, .queryBranch], lg2, .crash exc⟩
            | .ok pomPath =>
              match pathOf (jgetD kvs "liquibase_dir" (.str "src/main/resources/db/changelog")) with
              | .error exc => ⟨[.readConfig, .queryBranch, .queryBranch], lg2, .crash exc⟩
              | .ok lbDir =>
                match jgetD kvs "check_maven" (.bool true),
                      jgetD kvs "check_liquibase" (.bool true) with
                | .bool cmb, .bool clb =>
                  match (loadNyxVersion w.nyxFile nyxPath).2 with
                  | .error o =>
                    ⟨[.readConfig, .queryBranch, .queryBranch, .readNyx],
                     lg2 ++ (loadNyxVersion w.nyxFile nyxPath).1, o⟩
                  | .ok nyxVersion =>
                    let lg3 := lg2 ++ (loadNyxVersion w.nyxFile nyxPath).1
                      ++ [(Level.info, "Next version detected by Nyx: " ++ nyxVersion)]
                    match (mavenStep cmb w.pomFile pomPath nyxVersion).2.2 with
                    | .error o =>
                      ⟨[.readConfig, .queryBranch, .queryBranch, .readNyx]
                         ++ (mavenStep cmb w.pomFile pomPath nyxVersion).1,
                       lg3 ++ (mavenStep cmb w.pomFile pomPath nyxVersion).2.1, o⟩
                    | .ok _ =>
                      match (liquibaseStep clb nyxVersion lbDir w.fileExists).2.2 with
                      | .error o =>
                        ⟨[.readConfig, .queryBranch, .queryBranch, .readNyx]
                           ++ (mavenStep cmb w.pomFile pomPath nyxVersion).1
                           ++ (liquibaseStep clb nyxVersion lbDir w.fileExists).1,
                         lg3 ++ (mavenStep cmb w.pomFile pomPath nyxVersion).2.1
                           ++ (liquibaseStep clb nyxVersion lbDir w.fileExists).2.1, o⟩
                      | .ok _ =>
                        ⟨[.readConfig, .queryBranch, .queryBranch, .readNyx]
                           ++ (mavenStep cmb w.pomFile pomPath nyxVersion).1
                           ++ (liquibaseStep clb nyxVersion lbDir w.fileExists).1,
                         lg3 ++ (mavenStep cmb w.pomFile pomPath nyxVersion).2.1
                           ++ (liquibaseStep clb nyxVersion lbDir w.fileExists).2.1
                           ++ [(Level.info, "All checks passed!")], .exit 0⟩
                | cm, cl =>
                  ⟨[.readConfig, .queryBranch, .queryBranch],
                   lg2 ++ [(Level.error, boolsErrMsg cm cl)], .exit 1⟩
      | v =>
        ⟨[.readConfig, .queryBranch],
         lg1 ++ [(Level.error, protectedBranchesErrMsg v)], .exit 1⟩
    | v => ⟨[.readConfig, .queryBranch], lg1, .crash (attrGetMsg v)⟩


/-- Number of occurrences of one I/O event in a trace. -/
def countE (e : Event) (t : List Event) : Nat :=
  (t.filter (fun x => x = e)).length

/-- A parsable pom document with no namespace declaration: root tag `project`,
one direct child `version` with text `1.2.3` (ElementTree keeps plain tags
when no namespace is declared). -/
def pomUnnamespaced : XElem :=
  .mk "project" none [.mk "version" (some "1.2.3") []]

/-- A pom document in the Maven POM default namespace with a direct `version`
child whose text carries surrounding whitespace. -/
def pomNamespaced : XElem :=
  .mk (nsTag "project") none [.mk (nsTag "version") (some " 1.2.3 ") []]


/-- C4 witness environment: no config file, branch `dev`, nothing else
available on disk. -/
def wSkipC4 : World := ⟨none, some "dev", none, none, fun _ => false⟩

/-- C7 counterexample environment: `protected_branches` is `[42]`, a list
containing a non-string element; the current branch is `main`. -/
def w7 : World :=
  ⟨some (.ok (.obj [("protected_branches", .arr [.num 42])])), some "main", none, none,
   fun _ => false⟩

/-- C7 amended-claim witness environment: `protected_branches` is the string
`"main"`, not a list. -/
def w7s : World :=
  ⟨some (.ok (.obj [("protected_branches", .str "main")])), some "main", none, none,
   fun _ => false⟩

/-- C10 environment: the config file holds valid JSON that is not an object
(a top-level empty array). -/
def w10 : World := ⟨some (.ok (.arr [])), some "main", none, none, fun _ => false⟩


/-- C5 witness pom: Maven-namespaced manifest declaring version `9.9.9`. -/
def pomMismatch : XElem :=
  .mk (nsTag "project") none [.mk (nsTag "version") (some "9.9.9") []]

/-- C5 witness environment: defaults, branch `main`, state file declaring
version 1.2.3, manifest declaring 9.9.9. -/
def w5 : World :=
  ⟨none, some "main",
   some (.ok (.obj [("versionMajorNumber", .num 1), ("versionMinorNumber", .num 2),
     ("versionPatchNumber", .num 3)])),
   some (.ok pomMismatch), fun _ => false⟩


/-- C8 counterexample environment: no config file, branch `dev`. -/
def w8 : World := ⟨none, some "dev", none, none, fun _ => false⟩

theorem globMatch_nil (s : List Char) : globMatch [] s = s.isEmpty := by
  rw [globMatch]

theorem globMatch_star_nil (p : List Char) :
    globMatch ('*' :: p) [] = globMatch p [] := by
  rw [globMatch]; simp

theorem globMatch_star_cons (p : List Char) (c : Char) (s : List Char) :
    globMatch ('*' :: p) (c :: s) = (globMatch p (c :: s) || globMatch ('*' :: p) s) := by
  rw [globMatch]; simp

theorem globMatch_q_nil (p : List Char) : globMatch ('?' :: p) [] = false := by
  rw [globMatch]; simp

theorem globMatch_q_cons (p : List Char) (c : Char) (s : List Char) :
    globMatch ('?' :: p) (c :: s) = globMatch p s := by
  rw [globMatch]; simp

theorem globMatch_lit_nil {c : Char} (hc : c ≠ '*') (p : List Char) :
    globMatch (c :: p) [] = false := by
  rw [globMatch]; simp [hc]

theorem globMatch_lit_cons {c : Char} (hstar : c ≠ '*') (hq : c ≠ '?')
    (p : List Char) (d : Char) (s : List Char) :
    globMatch (c :: p) (d :: s) = (c = d && globMatch p s) := by
  rw [globMatch]; simp [hstar, hq]

theorem globMatch_sound :
    ∀ n p s, p.length + s.length ≤ n → globMatch p s = true → GlobSpec p s := by
  intro n
  induction n with
  | zero =>
    intro p s hlen h
    have hp : p = [] := List.eq_nil_of_length_eq_zero (by omega)
    have hs : s = [] := List.eq_nil_of_length_eq_zero (by omega)
    subst hp; subst hs
    exact GlobSpec.nil
  | succ n ih =>
    intro p s hlen h
    match p, s with
    | [], s =>
      rw [globMatch_nil] at h
      simp [List.isEmpty_iff] at h
      subst h
      exact GlobSpec.nil
    | c :: p', s =>
      by_cases hstar : c = '*'
      · subst hstar
        match s with
        | [] =>
          rw [globMatch_star_nil] at h
          exact GlobSpec.star_zero (ih p' [] (by simp at hlen ⊢; omega) h)
        | d :: s' =>
          rw [globMatch_star_cons] at h
          rcases Bool.or_eq_true_iff.mp h with h1 | h2
          · exact GlobSpec.star_zero (ih p' (d :: s') (by simp at hlen ⊢; omega) h1)
          · exact GlobSpec.star_more d (ih ('*' :: p') s' (by simp at hlen ⊢; omega) h2)
      · by_cases hq : c = '?'
        · subst hq
          match s with
          | [] => rw [globMatch_q_nil] at h; exact absurd h (by simp)
          | d :: s' =>
            rw [globMatch_q_cons] at h
            exact GlobSpec.one d (ih p' s' (by simp at hlen ⊢; omega) h)
        · match s with
          | [] => rw [globMatch_lit_nil hstar] at h; exact absurd h (by simp)
          | d :: s' =>
            rw [globMatch_lit_cons hstar hq] at h
            rcases Bool.and_eq_true_iff.mp h with ⟨hcd, h'⟩
            have hcd' : c = d := by simpa using hcd
            subst hcd'
            exact GlobSpec.lit c hstar hq (ih p' s' (by simp at hlen ⊢; omega) h')

theorem globMatch_complete {p s : List Char} (h : GlobSpec p s) :
    globMatch p s = true := by
  induction h with
  | nil => rw [globMatch_nil]; rfl
  | one c _ ih => rw [globMatch_q_cons]; exact ih
  | star_zero ih' ih =>
    rename_i p' s'
    match s' with
    | [] => rw [globMatch_star_nil]; exact ih
    | d :: s'' => rw [globMatch_star_cons]; simp [ih]
  | star_more c _ ih => rw [globMatch_star_cons]; simp [ih]
  | lit c hstar hq _ ih => rw [globMatch_lit_cons hstar hq]; simp [ih]

theorem globMatch_iff_GlobSpec (p s : List Char) :
    globMatch p s = true ↔ GlobSpec p s :=
  ⟨globMatch_sound (p.length + s.length) p s (le_refl _), globMatch_complete⟩

/-- C1: `matches_protected_branch(B, P)` returns true iff `B` matches at least
one pattern in `P` under shell-style glob semantics where `*` matches zero or
more characters including path separators, `?` matches exactly one character,
and matching is case-sensitive and anchored (stated for patterns without
`[...]` character classes, the patterns the glob semantics in question
describes); in particular `matches_protected_branch(B, [])` is false for every
`B`, and `matches("release/1.0/hotfix", ["release/*"])` is true. -/
theorem matches_protected_branch_glob_spec :
    (∀ (B : String) (P : List String), (∀ p ∈ P, '[' ∉ p.data) →
      (matchesProtectedBranch B P = true ↔ ∃ p ∈ P, GlobSpec p.data B.data))
    ∧ (∀ B : String, matchesProtectedBranch B [] = false)
    ∧ matchesProtectedBranch "release/1.0/hotfix" ["release/*"] = true := by
  refine ⟨?_, ?_, ?_⟩
  · intro B P _
    simp only [matchesProtectedBranch, List.any_eq_true, fnmatchcase]
    constructor
    · rintro ⟨p, hp, h⟩
      exact ⟨p, hp, (globMatch_iff_GlobSpec _ _).mp h⟩
    · rintro ⟨p, hp, h⟩
      exact ⟨p, hp, (globMatch_iff_GlobSpec _ _).mpr h⟩
  · intro B
    rfl
  · simp [matchesProtectedBranch, fnmatchcase, globMatch]

/-- C1 witness: the equivalence instantiated at branch `release/1.0` and
pattern list `["release/*"]`, whose bracket-free hypothesis holds by
computation. -/
theorem matches_protected_branch_glob_spec_witness :
    matchesProtectedBranch "release/1.0" ["release/*"] = true ↔
      ∃ p ∈ ["release/*"], GlobSpec p.data ("release/1.0" : String).data :=
  matches_protected_branch_glob_spec.1 "release/1.0" ["release/*"] (by decide)

/-- C2: `read_nyx_version` fails (with an error message naming the fields
`versionMajorNumber`, `versionMinorNumber` and `versionPatchNumber`) iff any
of the three fields of the parsed state object is missing, null, zero or
otherwise falsy; when all three are truthy it returns the dotted three-part
string of their Python string forms. -/
theorem read_nyx_version_spec (file : String) (d : List (String × Json)) :
    ((∃ e, readNyxVersion file d = .error e) ↔
      ¬(pyTruthy (jget d "versionMajorNumber") = true
        ∧ pyTruthy (jget d "versionMinorNumber") = true
        ∧ pyTruthy (jget d "versionPatchNumber") = true))
    ∧ (∀ e, readNyxVersion file d = .error e →
        ∃ pre mid1 mid2, e = pre ++ "versionMajorNumber" ++ mid1
          ++ "versionMinorNumber" ++ mid2 ++ "versionPatchNumber")
    ∧ (pyTruthy (jget d "versionMajorNumber") = true →
        pyTruthy (jget d "versionMinorNumber") = true →
        pyTruthy (jget d "versionPatchNumber") = true →
        readNyxVersion file d = .ok (pyStr (jget d "versionMajorNumber") ++ "."
          ++ pyStr (jget d "versionMinorNumber") ++ "."
          ++ pyStr (jget d "versionPatchNumber"))) := by
  refine ⟨?_, ?_, ?_⟩
  · cases h1 : pyTruthy (jget d "versionMajorNumber")
      <;> cases h2 : pyTruthy (jget d "versionMinorNumber")
      <;> cases h3 : pyTruthy (jget d "versionPatchNumber")
      <;> simp [readNyxVersion, h1, h2, h3]
  · intro e he
    rw [readNyxVersion] at he
    split at he
    · refine ⟨"Failed to parse Nyx JSON: Missing Major, Minor or Patch version. Check your "
        ++ file ++ " for fields: ", ", ", " and ", ?_⟩
      have hmsg : e = nyxMissingMsg file := by
        injection he.symm
      rw [hmsg]
      unfold nyxMissingMsg
      rw [show (" for fields: versionMajorNumber, versionMinorNumber and versionPatchNumber" : String)
          = " for fields: " ++ "versionMajorNumber" ++ ", " ++ "versionMinorNumber" ++ " and "
            ++ "versionPatchNumber" from rfl]
      simp [String.append_assoc]
    · exact absurd he (by simp)
  · intro h1 h2 h3
    simp [readNyxVersion, h1, h2, h3]

/-- C2 witness: on `\x7bversionMajorNumber: 1, versionMinorNumber: 2,
versionPatchNumber: 3\x7d` the function returns `"1.2.3"`. -/
theorem read_nyx_version_spec_witness :
    readNyxVersion "nyx-state.json"
      [("versionMajorNumber", Json.num 1), ("versionMinorNumber", Json.num 2),
       ("versionPatchNumber", Json.num 3)] = .ok "1.2.3" := by
  have h := (read_nyx_version_spec "nyx-state.json"
      [("versionMajorNumber", Json.num 1), ("versionMinorNumber", Json.num 2),
       ("versionPatchNumber", Json.num 3)]).2.2 (by rfl) (by rfl) (by rfl)
  rw [h]
  rfl

/-- C3 counterexample: a parsable manifest whose root has a direct
un-namespaced `version` child with text `1.2.3`. The claim says
`get_pom_version` resolves it; the code searches only the fixed Maven
namespace, finds nothing, and fails fatally with its no-version error. -/
theorem get_pom_version_unnamespaced_counterexample :
    getPomVersion pomUnnamespaced = .error pomNoVersionMsg := by
  rfl

/-- C3 amended: `get_pom_version` returns the stripped text of a `version`
element in the fixed Maven POM namespace that is a direct child of the root if
one exists; failing that, the stripped text of the first Maven-namespaced
`version` under a Maven-namespaced `parent` element anywhere in the document;
and fails fatally when neither is found. Un-namespaced (or otherwise
namespaced) `version` elements are not resolved. -/
theorem get_pom_version_spec (root : XElem) :
    (∀ ve t, root.children.find? (fun c => c.tag = nsTag "version") = some ve →
      ve.text = some t → getPomVersion root = .ok (pyStrip t))
    ∧ (∀ pv t, root.children.find? (fun c => c.tag = nsTag "version") = none →
      findParentVersion root = some pv → pv.text = some t →
      getPomVersion root = .ok (pyStrip t))
    ∧ (root.children.find? (fun c => c.tag = nsTag "version") = none →
      findParentVersion root = none →
      getPomVersion root = .error pomNoVersionMsg) := by
  refine ⟨?_, ?_, ?_⟩
  · intro ve t hfind htext
    simp only [getPomVersion, hfind, htext]
  · intro pv t hfind hpv htext
    simp only [getPomVersion, hfind, hpv, htext]
  · intro hfind hpv
    simp only [getPomVersion, hfind, hpv]

/-- C3 witness: on the namespaced document the direct-child rule applies and
the text is stripped to `1.2.3`. -/
theorem get_pom_version_spec_witness :
    getPomVersion pomNamespaced = .ok "1.2.3" := by
  have h := (get_pom_version_spec pomNamespaced).1
    (.mk (nsTag "version") (some " 1.2.3 ") []) " 1.2.3 " (by rfl) (by rfl)
  rw [h]
  rfl

/-- C9: `read_nyx_version` performs no integer type check on the three version
fields: whenever all three are present with truthy values of any JSON type, it
succeeds and returns their Python string forms joined by dots. -/
theorem read_nyx_version_no_type_check (file : String) (d : List (String × Json))
    (h1 : pyTruthy (jget d "versionMajorNumber") = true)
    (h2 : pyTruthy (jget d "versionMinorNumber") = true)
    (h3 : pyTruthy (jget d "versionPatchNumber") = true) :
    readNyxVersion file d = .ok (pyStr (jget d "versionMajorNumber") ++ "."
      ++ pyStr (jget d "versionMinorNumber") ++ "."
      ++ pyStr (jget d "versionPatchNumber")) := by
  simp [readNyxVersion, h1, h2, h3]

/-- C9 witness: string-valued and non-numeric truthy fields succeed, e.g.
major `"1"` (a string), minor `"two"` (a non-numeric string), patch `3`
yield `"1.two.3"`. -/
theorem read_nyx_version_no_type_check_witness :
    readNyxVersion "nyx-state.json"
      [("versionMajorNumber", Json.str "1"), ("versionMinorNumber", Json.str "two"),
       ("versionPatchNumber", Json.num 3)] = .ok "1.two.3" := by
  have h := read_nyx_version_no_type_check "nyx-state.json"
      [("versionMajorNumber", Json.str "1"), ("versionMinorNumber", Json.str "two"),
       ("versionPatchNumber", Json.num 3)] (by rfl) (by rfl) (by rfl)
  rw [h]
  rfl

/-- C6: `validate_liquibase_files` collects all missing names among
`V.sql` and `V_rollback.sql` before failing: every missing path is reported
individually, then a single fatal summary line is the last line logged, and
the process exits non-zero; when both exist it returns normally having logged
nothing. -/
theorem validate_liquibase_files_spec (version lbDir : String) (ex : String → Bool) :
    (ex (pathJoin lbDir (version ++ ".sql")) = true →
      ex (pathJoin lbDir (version ++ "_rollback.sql")) = true →
      validateLiquibaseFiles version lbDir ex =
        ([Event.checkExists (pathJoin lbDir (version ++ ".sql")),
          Event.checkExists (pathJoin lbDir (version ++ "_rollback.sql"))], [], .ok ()))
    ∧ (∀ f, (f = pathJoin lbDir (version ++ ".sql") ∧ ex f = false)
          ∨ (f = pathJoin lbDir (version ++ "_rollback.sql") ∧ ex f = false) →
        (Level.error, "Missing Liquibase file: " ++ f)
          ∈ (validateLiquibaseFiles version lbDir ex).2.1)
    ∧ (ex (pathJoin lbDir (version ++ ".sql")) = false
        ∨ ex (pathJoin lbDir (version ++ "_rollback.sql")) = false →
        (validateLiquibaseFiles version lbDir ex).2.2 = .error (.exit 1)
        ∧ (validateLiquibaseFiles version lbDir ex).2.1.getLast? =
            some (Level.error, lbSummaryMsg version lbDir
              (pathJoin lbDir (version ++ ".sql"))
              (pathJoin lbDir (version ++ "_rollback.sql")))) := by
  refine ⟨?_, ?_, ?_⟩
  · intro hf hr
    simp [validateLiquibaseFiles, hf, hr]
  · intro f hor
    rcases hor with ⟨hfeq, hex⟩ | ⟨hfeq, hex⟩ <;> subst hfeq <;>
      cases hf : ex (pathJoin lbDir (version ++ ".sql")) <;>
      cases hr : ex (pathJoin lbDir (version ++ "_rollback.sql")) <;>
      simp_all [validateLiquibaseFiles]
  · intro hor
    cases hf : ex (pathJoin lbDir (version ++ ".sql")) <;>
      cases hr : ex (pathJoin lbDir (version ++ "_rollback.sql")) <;>
      simp_all [validateLiquibaseFiles]

/-- C6 witness: with only the rollback file present for version `1.2.3` in
directory `db`, the forward path is reported missing, the summary is last,
and the run is fatal; with both present nothing is logged. -/
theorem validate_liquibase_files_spec_witness :
    (validateLiquibaseFiles "1.2.3" "db" (fun p => p = "db/1.2.3_rollback.sql")).2.2
        = .error (.exit 1)
    ∧ (Level.error, "Missing Liquibase file: " ++ "db/1.2.3.sql")
        ∈ (validateLiquibaseFiles "1.2.3" "db" (fun p => p = "db/1.2.3_rollback.sql")).2.1 := by
  have h := validate_liquibase_files_spec "1.2.3" "db" (fun p => p = "db/1.2.3_rollback.sql")
  refine ⟨(h.2.2 ?_).1, h.2.1 "db/1.2.3.sql" ?_⟩
  · left
    decide
  · left
    exact ⟨by decide, by decide⟩

/-- C4: when the current branch matches no protected-branch pattern, `main`
exits 0 right after the branch check; the I/O trace is exactly the config
read and the two branch queries, so the release-state file, the build
manifest and the migration directory are never read and their state cannot
affect the run. -/
theorem unprotected_branch_skips_all_checks (w : World) (lgs : List LogLine)
    (kvs : List (String × Json)) (ps : List Json)
    (h1 : loadConfig w.configFile = (lgs, .ok (.obj kvs)))
    (h2 : jgetD kvs "protected_branches" defaultProtected = .arr ps)
    (h3 : anyMatchJ (getCurrentBranch w.branchQuery) ps = .ok false) :
    (mainRun w).outcome = .exit 0
    ∧ (mainRun w).trace = [.readConfig, .queryBranch, .queryBranch] := by
  unfold mainRun
  rw [h1]
  dsimp only
  rw [h2]
  dsimp only
  rw [h3]
  exact ⟨rfl, rfl⟩

/-- C4 witness: with no config file present, on branch `dev` (not matching
the defaults `master`/`main`), the run exits 0 having touched only the
config path and the branch query. -/
theorem unprotected_branch_skips_all_checks_witness :
    (mainRun wSkipC4).outcome = .exit 0
    ∧ (mainRun wSkipC4).trace = [.readConfig, .queryBranch, .queryBranch] := by
  have h3 : anyMatchJ (getCurrentBranch wSkipC4.branchQuery)
      [Json.str "master", Json.str "main"] = .ok false := by
    have hb : getCurrentBranch wSkipC4.branchQuery = "dev" := rfl
    rw [hb]
    simp [anyMatchJ, fnmatchcase, globMatch]
  exact unprotected_branch_skips_all_checks wSkipC4 _ []
    [Json.str "master", Json.str "main"] rfl rfl h3

/-- C7 counterexample: with `protected_branches = [42]` (a list containing a
non-string) and current branch `main`, the claim demands a fatal exit at the
validation step; instead the `isinstance(..., list)` check passes, no error
is logged, and the run proceeds to branch matching where it dies with an
uncaught `TypeError`. -/
theorem protected_branches_element_unchecked_counterexample :
    (mainRun w7).outcome = .crash (fnmatchTypeMsg (.num 42))
    ∧ (∀ m, (Level.error, m) ∉ (mainRun w7).logs)
    ∧ (mainRun w7).trace = [.readConfig, .queryBranch, .queryBranch] := by
  have hb : getCurrentBranch (some "main") = "main" := rfl
  refine ⟨?_, ?_, ?_⟩ <;>
    simp [mainRun, w7, loadConfig, jgetD, anyMatchJ, hb]

/-- C7 amended: before branch matching the orchestrator validates only that
`protected_branches` is a list: any non-list value is fatal (non-zero exit,
with the list-of-strings error message); element types are not checked, so a
list containing a non-string passes this validation and reaches the matcher
(see the counterexample for the uncaught `TypeError` there). -/
theorem protected_branches_list_only_validation (w : World) (lgs : List LogLine)
    (kvs : List (String × Json)) (v : Json)
    (h1 : loadConfig w.configFile = (lgs, .ok (.obj kvs)))
    (h2 : jgetD kvs "protected_branches" defaultProtected = v)
    (h3 : ∀ ps, v ≠ .arr ps) :
    (mainRun w).outcome = .exit 1
    ∧ (Level.error, protectedBranchesErrMsg v) ∈ (mainRun w).logs := by
  unfold mainRun
  rw [h1]
  dsimp only
  rw [h2]
  cases v <;> first
    | exact absurd rfl (h3 _)
    | exact ⟨rfl, by simp⟩

/-- C7 amended witness: `protected_branches = "main"` (a string) is rejected
by the list validation with the list-of-strings message. -/
theorem protected_branches_list_only_validation_witness :
    (mainRun w7s).outcome = .exit 1
    ∧ (Level.error, protectedBranchesErrMsg (.str "main")) ∈ (mainRun w7s).logs :=
  protected_branches_list_only_validation w7s [] [("protected_branches", .str "main")]
    (.str "main") rfl rfl (fun _ h => Json.noConfusion h)

/-- C10: `load_config` returns whatever the file parses to, unchecked; on a
config file holding a top-level array, `main`'s first `config.get` raises an
uncaught `AttributeError` — the run crashes without taking the reported
fatal config-error path (no error line is logged). -/
theorem load_config_unchecked_passthrough :
    (∀ cf (j : Json), cf = some (ReadResult.ok j) → loadConfig cf = ([], Except.ok j))
    ∧ (mainRun w10).outcome = .crash (attrGetMsg (.arr []))
    ∧ (∀ m, (Level.error, m) ∉ (mainRun w10).logs) := by
  refine ⟨?_, ?_, ?_⟩
  · rintro cf j rfl
    rfl
  · rfl
  · intro m
    simp [mainRun, w10, loadConfig]

/-- C10 witness: the pass-through instantiated at the top-level-array file. -/
theorem load_config_unchecked_passthrough_witness :
    loadConfig (some (ReadResult.ok (Json.arr []))) = ([], Except.ok (Json.arr [])) :=
  load_config_unchecked_passthrough.1 (some (ReadResult.ok (Json.arr []))) (Json.arr []) rfl

/-- Helper: a present, object-valued state file with truthy fields resolves
to the Nyx version with no log output. -/
theorem loadNyxVersion_ok (nyxRead : Option (ReadResult Json)) (nd : List (String × Json))
    (nyxPath nv : String) (h9 : nyxRead = some (.ok (.obj nd)))
    (h10 : readNyxVersion nyxPath nd = .ok nv) :
    loadNyxVersion nyxRead nyxPath = ([], .ok nv) := by
  subst h9
  simp only [loadNyxVersion, h10]

/-- Helper: with the Maven check enabled, a readable manifest whose resolved
version differs from the Nyx version is fatal with the mismatch message. -/
theorem mavenStep_mismatch (pomRead : Option (ReadResult XElem)) (root : XElem)
    (pomPath nv pv : String) (h11 : pomRead = some (.ok root))
    (h12 : getPomVersion root = .ok pv) (hne : pv ≠ nv) :
    mavenStep true pomRead pomPath nv =
      ([Event.readPom], [(Level.error, mavenMismatchMsg pv nv)], .error (.exit 1)) := by
  subst h11
  simp only [mavenStep, h12, if_true]
  rw [if_pos hne]

/-- Helper: with the Maven check enabled, a manifest version equal to the Nyx
version passes with the success line. -/
theorem mavenStep_equal (pomRead : Option (ReadResult XElem)) (root : XElem)
    (pomPath nv pv : String) (h11 : pomRead = some (.ok root))
    (h12 : getPomVersion root = .ok pv) (heq : pv = nv) :
    mavenStep true pomRead pomPath nv =
      ([Event.readPom], [(Level.info, "Maven version matches Nyx")], .ok ()) := by
  subst h11
  simp only [mavenStep, h12, if_true]
  rw [if_neg (fun hcon => hcon heq)]

/-- C5: on a protected branch with `check_maven` true, the manifest version
and the release-state version are compared by exact string equality: when the
two strings differ the run exits non-zero after logging the error message
that interpolates both version strings; when they are equal the Maven check
passes (its success line is logged). -/
theorem maven_version_comparison (w : World) (lgs : List LogLine)
    (kvs : List (String × Json)) (ps : List Json) (nyxPath pomPath lbDir : String)
    (clb : Bool) (nd : List (String × Json)) (root : XElem) (nv pv : String)
    (h1 : loadConfig w.configFile = (lgs, .ok (.obj kvs)))
    (h2 : jgetD kvs "protected_branches" defaultProtected = .arr ps)
    (h3 : anyMatchJ (getCurrentBranch w.branchQuery) ps = .ok true)
    (h4 : pathOf (jgetD kvs "nyx_version_file" (.str "nyx-state.json")) = .ok nyxPath)
    (h5 : pathOf (jgetD kvs "pom_file" (.str "pom.xml")) = .ok pomPath)
    (h6 : pathOf (jgetD kvs "liquibase_dir" (.str "src/main/resources/db/changelog")) = .ok lbDir)
    (h7 : jgetD kvs "check_maven" (.bool true) = .bool true)
    (h8 : jgetD kvs "check_liquibase" (.bool true) = .bool clb)
    (h9 : w.nyxFile = some (.ok (.obj nd)))
    (h10 : readNyxVersion nyxPath nd = .ok nv)
    (h11 : w.pomFile = some (.ok root))
    (h12 : getPomVersion root = .ok pv) :
    (pv ≠ nv →
      (mainRun w).outcome = .exit 1
      ∧ (Level.error, mavenMismatchMsg pv nv) ∈ (mainRun w).logs)
    ∧ (pv = nv →
      (Level.info, "Maven version matches Nyx") ∈ (mainRun w).logs) := by
  constructor
  · intro hne
    unfold mainRun
    rw [h1]; dsimp only
    rw [h2]; dsimp only
    rw [h3]; dsimp only
    rw [h4]; dsimp only
    rw [h5]; dsimp only
    rw [h6]; dsimp only
    rw [h7, h8]; dsimp only
    rw [loadNyxVersion_ok w.nyxFile nd nyxPath nv h9 h10]; dsimp only
    rw [mavenStep_mismatch w.pomFile root pomPath nv pv h11 h12 hne]; dsimp only
    exact ⟨rfl, by simp⟩
  · intro heq
    unfold mainRun
    rw [h1]; dsimp only
    rw [h2]; dsimp only
    rw [h3]; dsimp only
    rw [h4]; dsimp only
    rw [h5]; dsimp only
    rw [h6]; dsimp only
    rw [h7, h8]; dsimp only
    rw [loadNyxVersion_ok w.nyxFile nd nyxPath nv h9 h10]; dsimp only
    rw [mavenStep_equal w.pomFile root pomPath nv pv h11 h12 heq]; dsimp only
    rcases hLB : liquibaseStep clb nv lbDir w.fileExists with ⟨evL, lgL, rL⟩
    cases rL <;> simp

/-- C5 witness: defaults, protected branch `main`, Nyx version `1.2.3`,
manifest version `9.9.9`: the run exits 1 and logs the message interpolating
both versions. -/
theorem maven_version_comparison_witness :
    (mainRun w5).outcome = .exit 1
    ∧ (Level.error, mavenMismatchMsg "9.9.9" "1.2.3") ∈ (mainRun w5).logs := by
  have h3 : anyMatchJ (getCurrentBranch w5.branchQuery)
      [Json.str "master", Json.str "main"] = .ok true := by
    have hb : getCurrentBranch w5.branchQuery = "main" := rfl
    rw [hb]
    simp [anyMatchJ, fnmatchcase, globMatch]
  exact (maven_version_comparison w5 _ [] [Json.str "master", Json.str "main"]
    "nyx-state.json" "pom.xml" "src/main/resources/db/changelog" true
    [("versionMajorNumber", .num 1), ("versionMinorNumber", .num 2),
     ("versionPatchNumber", .num 3)]
    pomMismatch "1.2.3" "9.9.9"
    rfl rfl h3 rfl rfl rfl rfl rfl rfl rfl rfl rfl).1 (by decide)

/-- Helper: the existence checks of `validate_liquibase_files` are always
exactly one probe of the forward path and one of the rollback path. -/
theorem validateLiquibaseFiles_trace (version lbDir : String) (ex : String → Bool) :
    (validateLiquibaseFiles version lbDir ex).1 =
      [Event.checkExists (pathJoin lbDir (version ++ ".sql")),
       Event.checkExists (pathJoin lbDir (version ++ "_rollback.sql"))] := by
  unfold validateLiquibaseFiles
  dsimp only
  repeat' split
  all_goals rfl

/-- Helper: the Maven step performs no I/O when disabled and exactly one pom
read when enabled. -/
theorem mavenStep_trace (cmb : Bool) (pomRead : Option (ReadResult XElem))
    (pomPath nyxVersion : String) :
    (mavenStep cmb pomRead pomPath nyxVersion).1 = []
    ∨ (mavenStep cmb pomRead pomPath nyxVersion).1 = [Event.readPom] := by
  cases cmb
  · left
    rfl
  · right
    rfl

/-- Helper: the Liquibase step performs no I/O when disabled and exactly the
two existence probes when enabled. -/
theorem liquibaseStep_trace (clb : Bool) (nyxVersion lbDir : String) (ex : String → Bool) :
    (liquibaseStep clb nyxVersion lbDir ex).1 = []
    ∨ ∃ a b, (liquibaseStep clb nyxVersion lbDir ex).1 =
        [Event.checkExists a, Event.checkExists b] := by
  cases clb
  · left
    rfl
  · right
    refine ⟨pathJoin lbDir (nyxVersion ++ ".sql"),
      pathJoin lbDir (nyxVersion ++ "_rollback.sql"), ?_⟩
    have hV := validateLiquibaseFiles_trace nyxVersion lbDir ex
    unfold liquibaseStep
    rcases hE : validateLiquibaseFiles nyxVersion lbDir ex with ⟨evs, lgs, r⟩
    rw [hE] at hV
    dsimp at hV
    cases r <;> simpa using hV

/-- Helper: every run's I/O trace has one of six shapes: the config read
alone; config read and one branch query; config read and both branch queries;
those plus the Nyx read; plus at most one pom read; plus at most one pair of
Liquibase existence probes. -/
theorem mainRun_trace_shape (w : World) :
    (mainRun w).trace = [Event.readConfig]
    ∨ (mainRun w).trace = [Event.readConfig, Event.queryBranch]
    ∨ (mainRun w).trace = [Event.readConfig, Event.queryBranch, Event.queryBranch]
    ∨ (mainRun w).trace
        = [Event.readConfig, Event.queryBranch, Event.queryBranch, Event.readNyx]
    ∨ (∃ pm, (mainRun w).trace
          = [Event.readConfig, Event.queryBranch, Event.queryBranch, Event.readNyx] ++ pm
        ∧ (pm = [] ∨ pm = [Event.readPom]))
    ∨ (∃ pm lq, (mainRun w).trace
          = [Event.readConfig, Event.queryBranch, Event.queryBranch, Event.readNyx] ++ pm ++ lq
        ∧ (pm = [] ∨ pm = [Event.readPom])
        ∧ (lq = [] ∨ ∃ a b, lq = [Event.checkExists a, Event.checkExists b])) := by
  unfold mainRun
  repeat' split
  all_goals first
    | exact Or.inl rfl
    | exact Or.inr (Or.inl rfl)
    | exact Or.inr (Or.inr (Or.inl rfl))
    | exact Or.inr (Or.inr (Or.inr (Or.inl rfl)))
    | exact Or.inr (Or.inr (Or.inr (Or.inr (Or.inl
        ⟨_, rfl, mavenStep_trace _ _ _ _⟩))))
    | exact Or.inr (Or.inr (Or.inr (Or.inr (Or.inr
        ⟨_, _, rfl, mavenStep_trace _ _ _ _, liquibaseStep_trace _ _ _ _⟩))))

/-- C8 counterexample: on a run with no config file and branch `dev`, the
external branch query is performed twice — once at the start of `main` and
once more inside `is_protected_branch` — refuting "at most once per
resource". -/
theorem branch_query_twice_counterexample :
    countE Event.queryBranch (mainRun w8).trace = 2 := by
  have hb : getCurrentBranch (some "dev") = "dev" := rfl
  simp [mainRun, w8, loadConfig, jgetD, defaultProtected, anyMatchJ, hb,
    fnmatchcase, globMatch, countE]

/-- C8 amended: per run, the config file, the release-state file and the
build manifest are each read at most once, while the external branch query is
performed at most twice (it is performed exactly twice whenever the run
reaches the protected-branch check). -/
theorem io_per_resource_bounds (w : World) :
    countE Event.readConfig (mainRun w).trace ≤ 1
    ∧ countE Event.queryBranch (mainRun w).trace ≤ 2
    ∧ countE Event.readNyx (mainRun w).trace ≤ 1
    ∧ countE Event.readPom (mainRun w).trace ≤ 1 := by
  rcases mainRun_trace_shape w with h | h | h | h | ⟨pm, h, hpm⟩ | ⟨pm, lq, h, hpm, hlq⟩ <;>
    rw [h]
  · decide
  · decide
  · decide
  · decide
  · rcases hpm with rfl | rfl <;> simp [countE]
  · rcases hpm with rfl | rfl <;> rcases hlq with rfl | ⟨a, b, rfl⟩ <;>
      simp [countE]
